import Mathlib

/-!
Verification of the pipeline-assembly / distillation-loss core of
`megatron/model/gpt2_model.py` (GPT2ModelPipe and its loss helpers).

The embedding follows the source file closely:
* tensors are modelled as a dtype plus flattened rational data;
* the vocabulary-partitioned loss primitives (`mpu.vocab_parallel_cross_entropy`,
  `mpu.loss.vocab_parallel_KLDivLoss`) live outside this file's source tree and
  are treated by the specification as opaque numeric reductions, so scalar loss
  values are modelled as a free term algebra over uninterpreted primitive
  applications;
* layer specs, format-adapter lambdas, and the materialization loop of
  `to_sequential` are modelled as explicit data with their call-time semantics.
-/

namespace GPT2Pipe

/-- Floating point width of a tensor: `torch.half` or `torch.float`. -/
inductive Dtype
  | half
  | float
deriving DecidableEq, Repr

/-- A tensor, reduced to what the loss helpers inspect: its dtype and its
flattened rational entries. -/
structure Tensor where
  dtype : Dtype
  data : List ℚ
deriving DecidableEq, Repr

/-- Modelled from the spec: scalar loss values. The cross-entropy / KL
primitives are external ("consumed as opaque numeric operations", spec §6), so
a scalar is a free term: a rational literal, an uninterpreted primitive
application recording exactly the tensors it received, or arithmetic on such
terms. `sumMul a m` stands for `torch.sum(a.view(-1) * m.view(-1))`. -/
inductive Scalar
  | lit (x : ℚ)
  | cePrim (output : Tensor) (targets : List Int)
  | kldPrim (output : Tensor) (labels : Tensor)
  | add (a b : Scalar)
  | mul (a b : Scalar)
  | div (a b : Scalar)
  | sumMul (a : Scalar) (mask : Tensor)
deriving DecidableEq, Repr

/-- `megatron.fp16.fp16_to_fp32`: upcast to full precision (data unchanged). -/
def fp16_to_fp32 (t : Tensor) : Tensor :=
  { t with dtype := Dtype.float }

/-- `Tensor.contiguous()` only changes memory layout; it is the identity here. -/
def contiguous (t : Tensor) : Tensor := t

/-- Modelled from the spec: `mpu.vocab_parallel_cross_entropy`, the opaque
vocabulary-partitioned per-token cross-entropy primitive (not under src/). -/
def vocab_parallel_cross_entropy (output : Tensor) (targets : List Int) : Scalar :=
  Scalar.cePrim output targets

/-- Modelled from the spec: `mpu.loss.vocab_parallel_KLDivLoss`, the opaque
vocabulary-partitioned per-token KL-divergence primitive (not under src/). -/
def vocab_parallel_KLDivLoss (output : Tensor) (labels : Tensor) : Scalar :=
  Scalar.kldPrim output labels

/-- The shared reduction tail of the three loss helpers:
`loss_mask = loss_mask.view(-1);
 loss = torch.sum(losses.view(-1) * loss_mask) / loss_mask.sum()`. -/
def maskedReduce (losses : Scalar) (loss_mask : Tensor) : Scalar :=
  Scalar.div (Scalar.sumMul losses loss_mask) (Scalar.lit loss_mask.data.sum)

/-- `cross_entropy(output, labels, _fp16)` from the source. `labels` is the
pair (token targets, loss mask). A `none` result models a raised exception
(the failed `assert` in the `_fp16` branch). -/
def cross_entropy (output : Tensor) (labels : List Int × Tensor)
    (_fp16 : Bool) : Option Scalar :=
  let targets := labels.1
  let loss_mask := labels.2
  if _fp16 then
    if output.dtype = Dtype.half ∧ loss_mask.dtype = Dtype.half then
      some (maskedReduce (vocab_parallel_cross_entropy (contiguous output) targets) loss_mask)
    else none
  else
    let output := fp16_to_fp32 output
    some (maskedReduce (vocab_parallel_cross_entropy (contiguous output) targets) loss_mask)

/-- `kldiv_loss(output, labels, _fp16)` from the source. `labels` is the pair
(teacher logits, loss mask). In the non-`_fp16` branch both tensors are upcast
before the KL primitive is invoked. -/
def kldiv_loss (output : Tensor) (labels : Tensor × Tensor)
    (_fp16 : Bool) : Option Scalar :=
  let lab := labels.1
  let loss_mask := labels.2
  if _fp16 then
    if output.dtype = Dtype.half ∧ lab.dtype = Dtype.half ∧ loss_mask.dtype = Dtype.half then
      some (maskedReduce (vocab_parallel_KLDivLoss (contiguous output) (contiguous lab)) loss_mask)
    else none
  else
    let output := fp16_to_fp32 output
    let lab := fp16_to_fp32 lab
    some (maskedReduce (vocab_parallel_KLDivLoss (contiguous output) (contiguous lab)) loss_mask)

/-- `mse_loss(output, labels, _fp16)` from the source, line for line: both
branches invoke `mpu.loss.vocab_parallel_KLDivLoss` (not an MSE), and in the
non-`_fp16` branch the upcast of `labels` is executed only after the loss has
been computed (source lines 89-91), so the primitive still sees the original
dtype; the upcast result is a dead store, kept here as `_lab`. -/
def mse_loss (output : Tensor) (labels : Tensor × Tensor)
    (_fp16 : Bool) : Option Scalar :=
  let lab := labels.1
  let loss_mask := labels.2
  if _fp16 then
    if output.dtype = Dtype.half ∧ lab.dtype = Dtype.half ∧ loss_mask.dtype = Dtype.half then
      some (maskedReduce (vocab_parallel_KLDivLoss (contiguous output) (contiguous lab)) loss_mask)
    else none
  else
    let output := fp16_to_fp32 output
    let losses := vocab_parallel_KLDivLoss (contiguous output) (contiguous lab)
    let _lab := fp16_to_fp32 lab
    some (maskedReduce losses loss_mask)

/-- `combined_loss(output, labels, alpha_lm, alpha_kld, alpha_mse, _fp16)` from
the source. `output` is the 4-tuple (teacher logits, teacher outputs, student
logits, student output). The Python local `loss` is assigned only inside the
`alpha_lm > 0` branch; reading it unassigned raises `UnboundLocalError`. Each
step value is `Option (Option Scalar)`: the outer layer models a raised
exception, the inner layer the possibly-unassigned local. CPython evaluates
the load of `loss` in `loss += e` before evaluating `e`. -/
def combined_loss (output : Tensor × Tensor × Tensor × Tensor)
    (labels : List Int × Tensor) (alpha_lm alpha_kld alpha_mse : ℚ)
    (_fp16 : Bool) : Option Scalar :=
  let targets := labels.1
  let loss_mask := labels.2
  let teacher_logits := output.1
  let student_logits := output.2.2.1
  let loss : Option Scalar := none
  let step1 : Option (Option Scalar) :=
    if alpha_lm > 0 then
      match cross_entropy student_logits (targets, loss_mask) _fp16 with
      | none => none
      | some lm_loss => some (some (Scalar.mul (Scalar.lit alpha_lm) lm_loss))
    else some loss
  let step2 : Option (Option Scalar) :=
    match step1 with
    | none => none
    | some loss =>
      if alpha_kld > 0 then
        match loss with
        | none => none
        | some prev =>
          match kldiv_loss student_logits (teacher_logits, loss_mask) _fp16 with
          | none => none
          | some kl_loss =>
            some (some (Scalar.add prev (Scalar.mul (Scalar.lit alpha_kld) kl_loss)))
      else some loss
  let step3 : Option (Option Scalar) :=
    match step2 with
    | none => none
    | some loss =>
      if alpha_mse > 0 then
        match loss with
        | none => none
        | some prev =>
          match mse_loss student_logits (teacher_logits, loss_mask) _fp16 with
          | none => none
          | some ms_loss =>
            some (some (Scalar.add prev (Scalar.mul (Scalar.lit alpha_mse) ms_loss)))
      else some loss
  match step3 with
  | none => none
  | some loss => loss

/-- Modelled from the spec: the masked mean-squared-error reduction the spec
prescribes for the third distillation term:
`sum_i mask_i * (s_i - t_i)^2 / sum_i mask_i`. -/
def spec_mse (student teacher mask : Tensor) : ℚ :=
  (List.zipWith (fun p m => m * p)
    (List.zipWith (fun s t => (s - t) * (s - t)) student.data teacher.data)
    mask.data).sum / mask.data.sum

/-- Whether a scalar term applies the KL-divergence primitive somewhere. -/
def usesKldPrim : Scalar → Bool
  | Scalar.kldPrim _ _ => true
  | Scalar.add a b => usesKldPrim a || usesKldPrim b
  | Scalar.mul a b => usesKldPrim a || usesKldPrim b
  | Scalar.div a b => usesKldPrim a || usesKldPrim b
  | Scalar.sumMul a _ => usesKldPrim a
  | _ => false

/-- Whether a tensor is half precision. -/
def tensorIsHalf (t : Tensor) : Bool :=
  match t.dtype with
  | Dtype.half => true
  | Dtype.float => false

/-- Whether some loss primitive inside a scalar term received a half-precision
tensor argument, i.e. whether loss arithmetic was performed on a tensor that
had not been upcast. -/
def scalarSeesHalf : Scalar → Bool
  | Scalar.cePrim output _ => tensorIsHalf output
  | Scalar.kldPrim output labels => tensorIsHalf output || tensorIsHalf labels
  | Scalar.add a b => scalarSeesHalf a || scalarSeesHalf b
  | Scalar.mul a b => scalarSeesHalf a || scalarSeesHalf b
  | Scalar.div a b => scalarSeesHalf a || scalarSeesHalf b
  | Scalar.sumMul a _ => scalarSeesHalf a
  | Scalar.lit _ => false

/-- The per-role override object (`neox_args.teacher_model_args` /
`neox_args.student_model_args`): its `__dict__` maps attribute names to either
a value or `None`. Modelled with the configuration fields the claims touch. -/
structure ModelArgs where
  hidden_size : Option Int := none
  num_layers : Option Nat := none
  norm : Option String := none
  pos_emb : Option String := none
  no_weight_tying : Option Bool := none
deriving DecidableEq, Repr

/-- The `neox_args` configuration object, restricted to the fields read by
`GPT2ModelPipe.__init__` / `init_specs` and the role-override sub-objects. -/
structure NeoxArgs where
  do_distillation : Bool
  hidden_size : Int
  num_layers : Nat
  norm : String
  pos_emb : String
  no_weight_tying : Bool
  teacher_model_args : ModelArgs := {}
  student_model_args : ModelArgs := {}
deriving DecidableEq, Repr

/-- `substitue_args(neox_args, set_student_args)` from the source: for every
attribute of the chosen role's override object that is not `None`, overwrite
the corresponding attribute of `neox_args`. In Python this mutates `neox_args`
in place and returns the same object; here it returns the updated record. -/
def substitue_args (a : NeoxArgs) (set_student_args : Bool) : NeoxArgs :=
  if a.do_distillation then
    let s := if set_student_args then a.student_model_args else a.teacher_model_args
    { a with
      hidden_size := s.hidden_size.getD a.hidden_size
      num_layers := s.num_layers.getD a.num_layers
      norm := s.norm.getD a.norm
      pos_emb := s.pos_emb.getD a.pos_emb
      no_weight_tying := s.no_weight_tying.getD a.no_weight_tying }
  else a

/-- The `list_neox_args` built in `GPT2ModelPipe.__init__`. In the source both
`substitue_args` calls mutate the one shared `neox_args` object and the list
stores two references to it; by the time the list is consumed the shared
object carries the teacher overlay followed by the student overlay, so both
entries equal that final state. -/
def list_neox_args (a : NeoxArgs) : List NeoxArgs :=
  if a.do_distillation then
    let afterTeacher := substitue_args a false
    let afterStudent := substitue_args afterTeacher true
    [afterStudent, afterStudent]
  else [a]

/-- The configuration `init_specs` actually reads on every iteration: the
shared object after both overlays when distillation is on, the plain config
otherwise. -/
def effective_args (a : NeoxArgs) : NeoxArgs :=
  if a.do_distillation then substitue_args (substitue_args a false) true else a

/-- The module classes a layer spec can instantiate, as imported by the
source. Constructor arguments that no claim inspects (hidden sizes, dropout,
init methods, epsilon, `get_key_value`, the shared rpe module) are omitted. -/
inductive ModuleClass
  | embeddingPipe
  | embeddingDistilPipe
  | transformerLayerPipe (layer_number : Nat)
  | transformerLayerDistilPipe (layer_number : Nat)
  | normPipe (normKind : String)
  | normDistilPipe (normKind : String)
  | parallelLinearPipe
  | parallelLinearDistilPipe
deriving DecidableEq, Repr

/-- The four inline format-adapter lambdas appended by `init_specs`, tagged by
the position/mode in which the source builds them. -/
inductive FmtAdapter
  | inferenceEntry
  | trainEntry
  | inferenceExit
  | distilExit
  | trainExit
deriving DecidableEq, Repr

/-- One element of `self.specs`: a `LayerSpec`, a `TiedLayerSpec` (key, class
and whether a `forward_fn` was supplied), a callable format adapter, or an
arbitrary unrecognized object (neither spec nor callable). -/
inductive PipeSpec
  | layerSpec (cls : ModuleClass)
  | tiedLayerSpec (key : String) (cls : ModuleClass) (has_forward_fn : Bool)
  | fmt (a : FmtAdapter)
  | unrecognized (tag : Nat)
deriving DecidableEq, Repr

/-- A pipeline value flowing between stages: a tensor (only its shape matters
to the adapters) or any other opaque value (mask, layer past, ...). -/
inductive TVal
  | tensor (shape : List Nat)
  | pv (tag : Nat)
deriving DecidableEq, Repr

/-- `torch.Tensor()`: a fresh empty tensor, shape `[0]`. -/
def emptyTensor : TVal := TVal.tensor [0]

/-- `x.transpose(0, 1).contiguous()`: swap the first two axes; raises (none)
on a non-tensor or a tensor with fewer than two dimensions. -/
def transpose01 : TVal → Option TVal
  | TVal.tensor (a :: b :: r) => some (TVal.tensor (b :: a :: r))
  | _ => none

/-- Call-time semantics of the format-adapter lambdas of `init_specs`.
`none` models a raised exception (index error / transpose on a non-tensor).
The `trainExit` adapter returns a bare tensor, modelled as a one-element
tuple. -/
def runAdapter : FmtAdapter → List TVal → Option (List TVal)
  | FmtAdapter.inferenceEntry, x0 :: x1 :: rest =>
    (transpose01 x0).map (fun t => t :: x1 :: emptyTensor :: rest)
  | FmtAdapter.inferenceEntry, _ => none
  | FmtAdapter.trainEntry, x0 :: rest =>
    (transpose01 x0).map (fun t => t :: rest)
  | FmtAdapter.trainEntry, _ => none
  | FmtAdapter.inferenceExit, xs =>
    match xs.get? 0, xs.get? 2 with
    | some x0, some x2 => (transpose01 x0).map (fun t => [t, x2])
    | _, _ => none
  | FmtAdapter.distilExit, x0 :: rest =>
    (transpose01 x0).map (fun t => t :: rest)
  | FmtAdapter.distilExit, _ => none
  | FmtAdapter.trainExit, x0 :: _ =>
    (transpose01 x0).map (fun t => [t])
  | FmtAdapter.trainExit, _ => none

/-- The norm selection of `init_specs` (if/elif/elif): `none` models the
`UnboundLocalError` raised at the `LayerSpec(NormPipe, norm, ...)` line when
`neox_args.norm` matches none of the three recognized kinds. -/
def pickNorm (a : NeoxArgs) : Option String :=
  if a.norm = "rmsnorm" then some "rmsnorm"
  else if a.norm = "layernorm" then some "layernorm"
  else if a.norm = "scalenorm" then some "scalenorm"
  else none

/-- The exceptions model assembly can raise. -/
inductive InitErr
  | distillInference
  | normUnrecognized
deriving DecidableEq, Repr

/-- `GPT2ModelPipe.init_specs` from the source, as a function of the config it
reads (`self.neox_args`), the mode flags, and the `self.specs` list it
extends. Appends, in order: one embedding spec (tied iff weight tying, with
key `"embed"` or `"embed_s"`), one entry format adapter, `num_layers`
transformer-layer specs, one exit format adapter, one norm spec, and one
output spec (tied with the same key iff weight tying, else a parallel-linear
spec). -/
def init_specs (a : NeoxArgs) (inference : Bool) (do_distillation : Bool)
    (specs : List PipeSpec) : Except InitErr (List PipeSpec) :=
  let weight_tying := ! a.no_weight_tying
  let embedCls := if do_distillation then ModuleClass.embeddingDistilPipe
                  else ModuleClass.embeddingPipe
  let student_embed_name := if weight_tying && ! specs.isEmpty then "_s" else ""
  let specs := specs ++ [if weight_tying then
      PipeSpec.tiedLayerSpec ("embed" ++ student_embed_name) embedCls false
    else PipeSpec.layerSpec embedCls]
  let specs := specs ++
    [PipeSpec.fmt (if inference then FmtAdapter.inferenceEntry else FmtAdapter.trainEntry)]
  let specs := specs ++ (List.range a.num_layers).map (fun x =>
    PipeSpec.layerSpec (if do_distillation then ModuleClass.transformerLayerDistilPipe x
                        else ModuleClass.transformerLayerPipe x))
  let specs := specs ++ [PipeSpec.fmt (if inference then FmtAdapter.inferenceExit
    else if do_distillation then FmtAdapter.distilExit else FmtAdapter.trainExit)]
  match pickNorm a with
  | none => Except.error InitErr.normUnrecognized
  | some nk =>
    let specs := specs ++ [PipeSpec.layerSpec
      (if do_distillation then ModuleClass.normDistilPipe nk else ModuleClass.normPipe nk)]
    let specs := specs ++ [if weight_tying then
        PipeSpec.tiedLayerSpec ("embed" ++ student_embed_name) embedCls true
      else PipeSpec.layerSpec (if do_distillation then ModuleClass.parallelLinearDistilPipe
                               else ModuleClass.parallelLinearPipe)]
    Except.ok specs

/-- The spec-building part of `GPT2ModelPipe.__init__`: the distillation /
inference guard, the derivation of the config list, and one `init_specs` call
per config, threading `self.specs`. -/
def gpt2_init (a : NeoxArgs) (inference : Bool) : Except InitErr (List PipeSpec) :=
  let do_distillation := a.do_distillation
  if do_distillation && inference then Except.error InitErr.distillInference
  else
    (list_neox_args a).foldlM
      (fun specs cfg => init_specs cfg inference do_distillation specs) []

/-- A built module instance. `id` is the allocation order during
materialization: two stages hold the identical underlying parameters exactly
when they hold modules with the same `id`. -/
structure Module where
  id : Nat
  cls : ModuleClass
deriving DecidableEq, Repr

/-- One element of the materialized layer list: a built module, a `Lambda`
around a format adapter, or the tied-receiver wrapper
`Lambda(lambda x: spec.forward_fn(tied_layers[spec.key][0], x))`. The
wrapper stores nothing: `spec` and `tied_layers` are free variables of the
lambda, resolved only at call time (see `receiverCallModule`). -/
inductive Stage
  | mod (m : Module)
  | fmtLambda (a : FmtAdapter)
  | tiedReceiver
deriving DecidableEq, Repr

/-- Loop state of `to_sequential`: the layers built so far, the tied-module
registry (`tied_layers` is a `defaultdict(list)`, but only the owner branch
ever appends and only for an unseen key, so each key holds exactly one
module), and the fresh-id counter standing for object allocation. -/
structure MatState where
  layers : List Stage
  tied : List (String × Module)
  next : Nat
deriving DecidableEq, Repr

/-- The enumeration loop of `to_sequential`; `n` is the running index and an
`Except.error n` models `ValueError(f'Layer number {n} ({spec}) Not
recognized')`. -/
def to_sequential_go : List PipeSpec → Nat → MatState → Except Nat MatState
  | [], _, st => Except.ok st
  | spec :: rest, n, st =>
    match spec with
    | PipeSpec.tiedLayerSpec key cls _ =>
      if (st.tied.lookup key).isSome then
        to_sequential_go rest (n + 1) { st with layers := st.layers ++ [Stage.tiedReceiver] }
      else
        let m : Module := { id := st.next, cls := cls }
        to_sequential_go rest (n + 1)
          { layers := st.layers ++ [Stage.mod m]
            tied := st.tied ++ [(key, m)]
            next := st.next + 1 }
    | PipeSpec.layerSpec cls =>
      let m : Module := { id := st.next, cls := cls }
      to_sequential_go rest (n + 1)
        { st with layers := st.layers ++ [Stage.mod m], next := st.next + 1 }
    | PipeSpec.fmt a =>
      to_sequential_go rest (n + 1) { st with layers := st.layers ++ [Stage.fmtLambda a] }
    | PipeSpec.unrecognized _ => Except.error n

/-- `GPT2ModelPipe.to_sequential` from the source (the wrapping into a
`SequentialWrapper` carries the layers unchanged and is omitted). -/
def to_sequential (specs : List PipeSpec) : Except Nat MatState :=
  to_sequential_go specs 0 { layers := [], tied := [], next := 0 }

/-- Call-time behaviour of every tied-receiver wrapper produced by
`to_sequential`. The lambda body is `spec.forward_fn(tied_layers[spec.key][0],
x)` where `spec` is the loop variable of the enumeration; Python closures
capture it by reference, so when the wrapper runs (after the loop) `spec`
holds the last element of `self.specs`. The returned module is the one the
wrapper hands to that spec's `forward_fn`; `none` models the raised exception
when the last spec is not tied, has no `forward_fn`, or its key resolves to an
empty list. -/
def receiverCallModule (specs : List PipeSpec) (tied : List (String × Module)) :
    Option Module :=
  match specs.getLast? with
  | some (PipeSpec.tiedLayerSpec key _ has_forward_fn) =>
    if has_forward_fn then tied.lookup key else none
  | _ => none

/-- Whether a spec element is one of the three shapes `to_sequential`
recognizes (tied spec, regular spec, callable). -/
def recognizedSpec : PipeSpec → Bool
  | PipeSpec.unrecognized _ => false
  | _ => true

/-- A distillation configuration whose teacher and student overrides disagree
on `hidden_size` (base 4, teacher 8, student 2). -/
def exOverlayArgs : NeoxArgs :=
  { do_distillation := true
    hidden_size := 4
    num_layers := 2
    norm := "layernorm"
    pos_emb := "learned"
    no_weight_tying := false
    teacher_model_args := { hidden_size := some 8 }
    student_model_args := { hidden_size := some 2 } }

/-- A weight-tied distillation configuration with one transformer layer. -/
def exDistilArgs : NeoxArgs :=
  { do_distillation := true
    hidden_size := 8
    num_layers := 1
    norm := "layernorm"
    pos_emb := "learned"
    no_weight_tying := false }

/-- The spec sequence the source assembles for `exDistilArgs` (training
mode). -/
def exDistilSpecs : List PipeSpec :=
  (gpt2_init exDistilArgs false).toOption.getD []

/-- A plain (non-distillation) configuration. -/
def exPlainArgs : NeoxArgs :=
  { do_distillation := false
    hidden_size := 8
    num_layers := 3
    norm := "rmsnorm"
    pos_emb := "learned"
    no_weight_tying := false }

/-- A spec sequence whose element at position 1 is unrecognized. -/
def exBadSpecs : List PipeSpec :=
  [PipeSpec.fmt FmtAdapter.trainEntry, PipeSpec.unrecognized 0]

/-- Concrete token targets for the loss examples. -/
def exTargets : List Int := [0, 1]

/-- A full-precision all-ones loss mask of two tokens. -/
def exMaskT : Tensor := { dtype := Dtype.float, data := [1, 1] }

/-- Concrete full-precision student logits. -/
def exStudentT : Tensor := { dtype := Dtype.float, data := [1, 2] }

/-- A deliberately malformed teacher tensor (half precision, no data). -/
def exTeacherT : Tensor := { dtype := Dtype.half, data := [] }

/-- Concrete full-precision output for the mse_loss example. -/
def exMseOut : Tensor := { dtype := Dtype.float, data := [1, 2] }

/-- Concrete full-precision labels for the mse_loss example. -/
def exMseLab : Tensor := { dtype := Dtype.float, data := [0, 4] }

/-- A half-precision one-token output tensor. -/
def exHalfOut : Tensor := { dtype := Dtype.half, data := [1] }

/-- A half-precision one-token labels tensor. -/
def exHalfLab : Tensor := { dtype := Dtype.half, data := [2] }

/-- A full-precision one-token loss mask. -/
def exMask1 : Tensor := { dtype := Dtype.float, data := [1] }

/-- A concrete inference-mode pipeline tuple (hidden state, layer past,
attention mask). -/
def exInfTuple : List TVal := [TVal.tensor [2, 3], TVal.pv 7, TVal.pv 8]

/-- One `init_specs` call succeeds whenever the norm kind is recognized, and
extends the spec list by exactly `num_layers + 5` elements. -/
theorem init_specs_length_ok (a : NeoxArgs) (inference dd : Bool) (s : List PipeSpec)
    (nk : String) (h : pickNorm a = some nk) :
    ∃ out, init_specs a inference dd s = Except.ok out ∧
      out.length = s.length + (a.num_layers + 5) := by
  simp only [init_specs, h]
  refine ⟨_, rfl, ?_⟩
  simp [List.length_append, List.length_map, List.length_range]

/-- `init_specs` never raises the distillation/inference error. -/
theorem init_specs_no_distill_error (a : NeoxArgs) (inference dd : Bool)
    (s : List PipeSpec) :
    init_specs a inference dd s ≠ Except.error InitErr.distillInference := by
  simp only [init_specs]
  cases h : pickNorm a <;> simp

/-- Folding `init_specs` over any config list never raises the
distillation/inference error. -/
theorem foldl_init_specs_no_distill_error (l : List NeoxArgs) (inference dd : Bool)
    (s : List PipeSpec) :
    l.foldlM (fun specs cfg => init_specs cfg inference dd specs) s
      ≠ Except.error InitErr.distillInference := by
  induction l generalizing s with
  | nil =>
    intro hcontra
    exact Except.noConfusion hcontra
  | cons c rest ih =>
    simp only [List.foldlM_cons]
    cases h : init_specs c inference dd s with
    | error e =>
      have hne : e ≠ InitErr.distillInference := by
        intro he
        exact init_specs_no_distill_error c inference dd s (he ▸ h)
      intro hcontra
      exact hne (Except.error.inj hcontra)
    | ok s1 =>
      exact ih s1

/-- Materialization succeeds on any sequence of recognized spec shapes. -/
theorem to_sequential_go_all_recognized (specs : List PipeSpec) :
    ∀ (n : Nat) (st : MatState), specs.all recognizedSpec = true →
      ∃ st2, to_sequential_go specs n st = Except.ok st2 := by
  induction specs with
  | nil => intro n st _; exact ⟨st, rfl⟩
  | cons spec rest ih =>
    intro n st hall
    rw [List.all_cons, Bool.and_eq_true] at hall
    cases spec with
    | layerSpec cls => simpa [to_sequential_go] using ih (n + 1) _ hall.2
    | tiedLayerSpec key cls hf =>
      by_cases hk : (st.tied.lookup key).isSome = true
      · simpa [to_sequential_go, hk] using ih (n + 1) _ hall.2
      · simpa [to_sequential_go, hk] using ih (n + 1) _ hall.2
    | fmt a => simpa [to_sequential_go] using ih (n + 1) _ hall.2
    | unrecognized t => simp [recognizedSpec] at hall

/-- Materialization raises at the first unrecognized element, reporting its
position relative to the running index. -/
theorem to_sequential_go_error_at (specs : List PipeSpec) :
    ∀ (k n : Nat) (st : MatState) (u : PipeSpec),
      (specs.take k).all recognizedSpec = true →
      specs[k]? = some u → recognizedSpec u = false →
      to_sequential_go specs n st = Except.error (n + k) := by
  induction specs with
  | nil => intro k n st u _ hk _; simp at hk
  | cons spec rest ih =>
    intro k n st u hall hk hu
    cases k with
    | zero =>
      rw [List.getElem?_cons_zero, Option.some_inj] at hk
      subst hk
      cases spec with
      | unrecognized t => simp [to_sequential_go]
      | layerSpec cls => simp [recognizedSpec] at hu
      | tiedLayerSpec key cls hf => simp [recognizedSpec] at hu
      | fmt a => simp [recognizedSpec] at hu
    | succ k =>
      rw [List.take_succ_cons, List.all_cons, Bool.and_eq_true] at hall
      rw [List.getElem?_cons_succ] at hk
      have harith : n + 1 + k = n + (k + 1) := by omega
      cases spec with
      | layerSpec cls =>
        simp only [to_sequential_go]
        rw [ih k (n + 1) _ u hall.2 hk hu, harith]
      | tiedLayerSpec key cls hf =>
        simp only [to_sequential_go]
        by_cases hkk : (st.tied.lookup key).isSome = true
        · rw [if_pos hkk, ih k (n + 1) _ u hall.2 hk hu, harith]
        · rw [if_neg hkk, ih k (n + 1) _ u hall.2 hk hu, harith]
      | fmt a =>
        simp only [to_sequential_go]
        rw [ih k (n + 1) _ u hall.2 hk hu, harith]
      | unrecognized t => simp [recognizedSpec] at hall

/-- C1: refuted on the code. With distillation enabled, `substitue_args`
mutates the shared `neox_args` object in place and the config list stores that
one object twice, so the "teacher" entry already carries the student overlay:
on a base config with hidden_size 4, teacher override 8, student override 2,
both entries have hidden_size 2 and are identical, whereas the teacher-only
overlay would give 8. The teacher stack is therefore built from a config
affected by the student overrides. -/
theorem teacher_config_carries_student_overrides :
    (list_neox_args exOverlayArgs).map NeoxArgs.hidden_size = [2, 2] ∧
    (substitue_args exOverlayArgs false).hidden_size = 8 ∧
    (list_neox_args exOverlayArgs)[0]? = (list_neox_args exOverlayArgs)[1]? := by
  decide

/-- C2: refuted on the code. `mse_loss` invokes
`mpu.loss.vocab_parallel_KLDivLoss`, so the value it produces contains the
KL-divergence primitive and is not the masked mean-squared-error reduction the
specification prescribes. -/
theorem mse_loss_applies_kldiv_primitive :
    (mse_loss exMseOut (exMseLab, exMaskT) false).map usesKldPrim = some true ∧
    mse_loss exMseOut (exMseLab, exMaskT) false
      ≠ some (Scalar.lit (spec_mse exMseOut exMseLab exMaskT)) := by
  decide

/-- C3: refuted on the code. In the weight-tied distillation assembly, the
tied-receiver wrapper built for the teacher's output stage late-binds the loop
variable `spec`, so at call time it resolves the LAST spec's key
(`"embed_s"`): it hands `forward_fn` the student's embedding module (id 3),
not the module first registered under the teacher's own key `"embed"`
(id 0). -/
theorem tied_receiver_resolves_last_spec_key :
    (to_sequential exDistilSpecs).toOption.map (fun st =>
        (receiverCallModule exDistilSpecs st.tied, st.tied.lookup "embed"))
      = some (some { id := 3, cls := ModuleClass.embeddingDistilPipe },
              some { id := 0, cls := ModuleClass.embeddingDistilPipe }) ∧
    ({ id := 3, cls := ModuleClass.embeddingDistilPipe } : Module)
      ≠ { id := 0, cls := ModuleClass.embeddingDistilPipe } := by
  decide

/-- C4: for every valid configuration (recognized norm kind on the config
each `init_specs` call actually reads, and no distillation together with
inference), assembly produces 1 embedding + 1 format adapter + num_layers
transformer layers + 1 format adapter + 1 norm + 1 output = num_layers + 5
specs, and exactly twice that (two full stacks appended in order) when
distillation is enabled. -/
theorem assembled_spec_count (a : NeoxArgs) (inference : Bool)
    (hn : (pickNorm (effective_args a)).isSome = true)
    (hi : a.do_distillation = true → inference = false) :
    ∃ specs, gpt2_init a inference = Except.ok specs ∧
      specs.length = if a.do_distillation = true
        then 2 * ((effective_args a).num_layers + 5)
        else a.num_layers + 5 := by
  obtain ⟨nk, hnk⟩ := Option.isSome_iff_exists.mp hn
  cases hd : a.do_distillation with
  | false =>
    have he : effective_args a = a := by simp [effective_args, hd]
    rw [he] at hnk
    obtain ⟨out, hout, hlen⟩ := init_specs_length_ok a inference false [] nk hnk
    refine ⟨out, ?_, ?_⟩
    · simp [gpt2_init, hd, list_neox_args, hout]
    · simp [hd, hlen]
  | true =>
    have hinf : inference = false := hi hd
    subst hinf
    have he : effective_args a = substitue_args (substitue_args a false) true := by
      simp [effective_args, hd]
    rw [he] at hnk
    obtain ⟨out1, hout1, hlen1⟩ :=
      init_specs_length_ok (substitue_args (substitue_args a false) true) false true [] nk hnk
    obtain ⟨out2, hout2, hlen2⟩ :=
      init_specs_length_ok (substitue_args (substitue_args a false) true) false true out1 nk hnk
    refine ⟨out2, ?_, ?_⟩
    · simp only [gpt2_init, hd, list_neox_args, if_true, Bool.and_false,
        Bool.false_eq_true, if_false, List.foldlM_cons, List.foldlM_nil, hout1]
      show (init_specs (substitue_args (substitue_args a false) true) false true out1 >>= pure)
        = Except.ok out2
      rw [hout2]
      rfl
    · rw [hlen2, hlen1, he]
      simp [hd]
      omega

/-- Witness for `assembled_spec_count` at a concrete distillation
configuration. -/
theorem assembled_spec_count_witness :
    ∃ specs, gpt2_init exOverlayArgs false = Except.ok specs ∧
      specs.length = if exOverlayArgs.do_distillation = true
        then 2 * ((effective_args exOverlayArgs).num_layers + 5)
        else exOverlayArgs.num_layers + 5 :=
  assembled_spec_count exOverlayArgs false (by decide) (fun _ => rfl)

/-- C5: with alpha_kld = alpha_mse = 0 and alpha_lm > 0, `combined_loss`
equals exactly alpha_lm times the cross-entropy of the student logits against
the targets, for every teacher tensor whatsoever (malformed ones included):
the KL and MSE computations are never evaluated, so no exception can arise
from them. -/
theorem combined_loss_lm_only (t1 t2 s1 s2 : Tensor) (targets : List Int)
    (mask : Tensor) (alpha_lm : ℚ) (f : Bool) (h : 0 < alpha_lm) :
    combined_loss (t1, t2, s1, s2) (targets, mask) alpha_lm 0 0 f
      = (cross_entropy s1 (targets, mask) f).map
          (fun l => Scalar.mul (Scalar.lit alpha_lm) l) := by
  simp only [combined_loss]
  rw [if_pos h]
  cases hce : cross_entropy s1 (targets, mask) f with
  | none => simp [hce, lt_irrefl]
  | some l => simp [hce, lt_irrefl]

/-- Witness for `combined_loss_lm_only` with a malformed (half-precision,
empty) teacher tensor. -/
theorem combined_loss_lm_only_witness :
    combined_loss (exTeacherT, exTeacherT, exStudentT, exStudentT)
        (exTargets, exMaskT) 1 0 0 false
      = (cross_entropy exStudentT (exTargets, exMaskT) false).map
          (fun l => Scalar.mul (Scalar.lit 1) l) :=
  combined_loss_lm_only exTeacherT exTeacherT exStudentT exStudentT exTargets
    exMaskT 1 false one_pos

/-- C6: refuted on the code for `mse_loss`. With the validated half-precision
flag unset and half-precision inputs, the loss primitive inside `mse_loss`
still receives the labels tensor in half precision (the upcast of `labels` is
a dead store executed after the loss call), while `kldiv_loss` and
`cross_entropy` upcast every tensor before the loss arithmetic. -/
theorem mse_loss_upcast_follows_loss :
    (mse_loss exHalfOut (exHalfLab, exMask1) false).map scalarSeesHalf = some true ∧
    (kldiv_loss exHalfOut (exHalfLab, exMask1) false).map scalarSeesHalf = some false ∧
    (cross_entropy exHalfOut ([0], exMask1) false).map scalarSeesHalf = some false := by
  decide

/-- C7: with distillation enabled, requesting inference makes assembly fail
with the distillation/inference configuration error; with inference false that
error is never raised, whatever the configuration. -/
theorem distillation_inference_guard (a : NeoxArgs) :
    (a.do_distillation = true → gpt2_init a true = Except.error InitErr.distillInference) ∧
    gpt2_init a false ≠ Except.error InitErr.distillInference := by
  constructor
  · intro hd
    simp [gpt2_init, hd]
  · simp only [gpt2_init, Bool.and_false, Bool.false_eq_true, if_false]
    exact foldl_init_specs_no_distill_error (list_neox_args a) false a.do_distillation []

/-- Witness for `distillation_inference_guard` at a concrete distillation
configuration. -/
theorem distillation_inference_guard_witness :
    gpt2_init exDistilArgs true = Except.error InitErr.distillInference ∧
    gpt2_init exDistilArgs false ≠ Except.error InitErr.distillInference :=
  ⟨(distillation_inference_guard exDistilArgs).1 rfl,
   (distillation_inference_guard exDistilArgs).2⟩

/-- C8 counterexample: on the inference tuple (hidden state, layer past,
mask), the first inference format adapter does NOT put the empty accumulator
placeholder at tuple position 1 (immediately after the hidden state): position
1 still holds the layer-past value and the placeholder lands at position 2. -/
theorem inference_adapter_position_counterexample :
    runAdapter FmtAdapter.inferenceEntry exInfTuple
      = some [TVal.tensor [3, 2], TVal.pv 7, emptyTensor, TVal.pv 8] ∧
    (runAdapter FmtAdapter.inferenceEntry exInfTuple).map (fun ys => ys[1]?)
      ≠ some (some emptyTensor) := by
  decide

/-- C8 amended: in inference mode the first format adapter transposes the
first two axes of the hidden-state tensor and inserts the empty accumulator
placeholder at tuple position 2, immediately after the layer-past value,
passing every other pipeline value through unchanged; assembly places this
adapter directly after the embedding spec. -/
theorem inference_adapter_inserts_at_position_two :
    (∀ (a b : Nat) (sh : List Nat) (p : TVal) (rest : List TVal),
      runAdapter FmtAdapter.inferenceEntry (TVal.tensor (a :: b :: sh) :: p :: rest)
        = some (TVal.tensor (b :: a :: sh) :: p :: emptyTensor :: rest)) ∧
    (gpt2_init exPlainArgs true).toOption.map (fun s => s[1]?)
      = some (some (PipeSpec.fmt FmtAdapter.inferenceEntry)) := by
  constructor
  · intro a b sh p rest
    rfl
  · decide

/-- C9: materializing a sequence whose first unrecognized element (neither a
tied spec, a regular spec, nor a callable) sits at position k fails with the
error naming position k, and a sequence of recognized shapes only always
materializes without error. -/
theorem to_sequential_unrecognized_position :
    (∀ (specs : List PipeSpec) (k : Nat) (u : PipeSpec),
      (specs.take k).all recognizedSpec = true →
      specs[k]? = some u → recognizedSpec u = false →
      to_sequential specs = Except.error k) ∧
    (∀ specs : List PipeSpec, specs.all recognizedSpec = true →
      ∃ st, to_sequential specs = Except.ok st) := by
  constructor
  · intro specs k u h1 h2 h3
    have := to_sequential_go_error_at specs k 0 { layers := [], tied := [], next := 0 } u h1 h2 h3
    simpa [to_sequential] using this
  · intro specs h
    exact to_sequential_go_all_recognized specs 0 _ h

/-- Witness for `to_sequential_unrecognized_position`: a sequence with an
unrecognized element at position 1 fails naming position 1, and the assembled
distillation sequence materializes. -/
theorem to_sequential_unrecognized_position_witness :
    to_sequential exBadSpecs = Except.error 1 ∧
    ∃ st, to_sequential exDistilSpecs = Except.ok st :=
  ⟨to_sequential_unrecognized_position.1 exBadSpecs 1 (PipeSpec.unrecognized 0)
      (by decide) (by decide) (by decide),
   to_sequential_unrecognized_position.2 exDistilSpecs (by decide)⟩

/-- C10: `combined_loss` is well-defined only when alpha_lm > 0. Whenever
alpha_lm ≤ 0 the Python local `loss` is never assigned, so the function
raises (reading the unassigned local in `loss += ...` when alpha_kld or
alpha_mse is positive, or in the final `return loss` when all weights are
zero), for every input. -/
theorem combined_loss_needs_alpha_lm (output : Tensor × Tensor × Tensor × Tensor)
    (labels : List Int × Tensor) (alpha_lm alpha_kld alpha_mse : ℚ) (f : Bool)
    (h : alpha_lm ≤ 0) :
    combined_loss output labels alpha_lm alpha_kld alpha_mse f = none := by
  simp only [combined_loss]
  rw [if_neg (not_lt.mpr h)]
  by_cases h2 : alpha_kld > 0
  · simp [h2]
  · by_cases h3 : alpha_mse > 0 <;> simp [h2, h3]

/-- Witness for `combined_loss_needs_alpha_lm`: alpha_lm = 0 with a positive
KL weight raises. -/
theorem combined_loss_needs_alpha_lm_witness :
    combined_loss (exTeacherT, exTeacherT, exStudentT, exStudentT)
      (exTargets, exMaskT) 0 1 0 false = none :=
  combined_loss_needs_alpha_lm (exTeacherT, exTeacherT, exStudentT, exStudentT)
    (exTargets, exMaskT) 0 1 0 false (le_refl 0)

end GPT2Pipe
